import Mathlib

/-!
Verification of the geometric occupancy engine of the CarSurveillance
repository: the quadrilateral region model (`src/utils.py`), the
perspective-warp pipeline entry points (`src/image_utils.py`), and the
band / queue evaluation policies (`src/image_processor.py`).

Shallow embedding conventions:
* Python integers become `Int`; the float interpolation inside the
  ray-casting test becomes exact `ℚ` arithmetic (the division is guarded so
  its value class does not affect the properties proved here).
* The external OpenCV calls (`cv2.getPerspectiveTransform`,
  `cv2.perspectiveTransform`, image resampling) are collaborators outside
  the repository; the point-warping step is modelled as an arbitrary
  function `warp : Point → Point` parameter, and `warp_perspective` is
  modelled up to the data it hands to the solver.
* `raise ValueError` becomes `Except` with an explicit error type.
-/

/-- `Point` from `src/utils.py`: integer coordinates in pixel space
(the constructor coerces with `int(...)`). -/
structure Point where
  x : Int
  y : Int
deriving DecidableEq, Repr

/-- `Box` from `src/utils.py` (imported by the rest of the code under the
name `Quadrilateral`): four named corners, in the constructor order of the
Python class. -/
structure Box where
  top_left : Point
  bottom_right : Point
  top_right : Point
  bottom_left : Point
deriving DecidableEq, Repr

/-- The Python code under the name `Quadrilateral` refers to this class. -/
abbrev Quadrilateral := Box

/-- The `start` vertices of `self.lines` in `Box.__init__`, in order:
`lines[i].start` for `i = 0, 1, 2, 3`. -/
def Box.lineStarts (b : Box) : List Point :=
  [b.top_left, b.top_right, b.bottom_right, b.bottom_left]

/-- The pairs `(lines[i].start, lines[(i + 1) % n].start)` walked by the
loop of `Box.check_point_inside`. -/
def Box.edgePairs (b : Box) : List (Point × Point) :=
  [(b.top_left, b.top_right), (b.top_right, b.bottom_right),
   (b.bottom_right, b.bottom_left), (b.bottom_left, b.top_left)]

/-- The horizontal-edge special case of `Box.check_point_inside`
(`src/utils.py` line 109): the two edge endpoints share the query point's
y and its x lies within the edge's x-span, both ends inclusive. -/
def onHorizontalEdge (c n p : Point) : Prop :=
  c.y = n.y ∧ n.y = p.y ∧ min c.x n.x ≤ p.x ∧ p.x ≤ max c.x n.x

instance (c n p : Point) : Decidable (onHorizontalEdge c n p) := by
  unfold onHorizontalEdge; infer_instance

/-- The half-open straddle guard of the ray-casting branch
(`src/utils.py` line 113): one endpoint's y is `≤` the query y which is
`<` the other endpoint's y, in either orientation. -/
def straddles (cy ny py : Int) : Bool :=
  (decide (cy ≤ py) && decide (py < ny)) || (decide (ny ≤ py) && decide (py < cy))

/-- The linear interpolation of the edge's x at the query y
(`src/utils.py` line 114), over exact rationals. -/
def edgeXAt (c n : Point) (py : Int) : ℚ :=
  ((n.x : ℚ) - (c.x : ℚ)) * ((py : ℚ) - (c.y : ℚ)) / ((n.y : ℚ) - (c.y : ℚ)) + (c.x : ℚ)

/-- The loop body of `Box.check_point_inside`, iterating over the
`(current, next)` vertex pairs with the running `inside` flag; the
horizontal-edge case returns `true` immediately, the ray-casting case
toggles the flag. -/
def checkPointInsideLoop (p : Point) : List (Point × Point) → Bool → Bool
  | [], inside => inside
  | (c, n) :: rest, inside =>
    if onHorizontalEdge c n p then
      true
    else if straddles c.y n.y p.y && decide ((p.x : ℚ) < edgeXAt c n p.y) then
      checkPointInsideLoop p rest (!inside)
    else
      checkPointInsideLoop p rest inside

/-- `Box.check_point_inside` from `src/utils.py`: ray casting with the
horizontal-edge special case, starting with `inside = False`. -/
def Box.check_point_inside (b : Box) (p : Point) : Bool :=
  checkPointInsideLoop p b.edgePairs false

/-- `car_points.sort(key=lambda p: p.y)`: Python's stable sort by the y
coordinate, modelled by stable insertion sort. -/
def sortByY (pts : List Point) : List Point :=
  pts.insertionSort (fun p q => p.y ≤ q.y)

/-- `ImageProcessor.PARKING_BOX` from `src/image_processor.py`. -/
def PARKING_BOX : Box :=
  { top_left := ⟨410, 230⟩, bottom_right := ⟨915, 500⟩,
    top_right := ⟨455, 210⟩, bottom_left := ⟨915, 600⟩ }

/-- `ImageProcessor.TRAFFIC_LIGHT_QUEUE` from `src/image_processor.py`. -/
def TRAFFIC_LIGHT_QUEUE : Box :=
  { top_left := ⟨210, 110⟩, bottom_right := ⟨425, 250⟩,
    top_right := ⟨260, 105⟩, bottom_left := ⟨360, 250⟩ }

/-- `ImageProcessor.PARKING_LINES` from `src/image_processor.py`. -/
def PARKING_LINES : List Int :=
  [10, 100, 192, 290, 385, 480, 580, 680, 785, 890]

/-- The point pipeline of
`ImageProcessor.get_image_with_cars_from_quadrilateral`: sort the car
points by y, keep those inside the quadrilateral, and warp each survivor.
The warp matrix application (`cv2.perspectiveTransform`) is the external
collaborator `warp`. -/
def get_warped_car_points (quad : Box) (warp : Point → Point)
    (car_points : List Point) : List Point :=
  ((sortByY car_points).filter (fun p => quad.check_point_inside p)).map warp

/-- `next_line_y` of the band loop in `ImageProcessor.check_parking_spaces`
(line 93): the following threshold, or the sentinel 1000 for the last
band. -/
def nextLineY (lines : List Int) (i : Nat) : Int :=
  if h : i + 1 < lines.length then lines.get ⟨i + 1, h⟩ else 1000

/-- The inner loop of the band check (lines 95 to 99): occupied iff some
warped point's y satisfies `line_y <= point.y <= next_line_y`. -/
def bandOccupied (points : List Point) (line_y next_y : Int) : Bool :=
  points.any fun p => decide (line_y ≤ p.y) && decide (p.y ≤ next_y)

/-- The condition of line 97 — `line_y <= point.y <= next_line_y` with
`line_y = lines[i]` — applied to a single y value: membership of y in the
interval of band `i`, both ends inclusive. -/
def bandTest (lines : List Int) (i : Nat) (y : Int) : Bool :=
  decide (lines.getD i 0 ≤ y) && decide (y ≤ nextLineY lines i)

/-- The `parking_spaces` list built by the band loop of
`ImageProcessor.check_parking_spaces` (lines 91 to 100), before the final
`reverse()`. -/
def checkBandsPre (lines : List Int) (points : List Point) : List Bool :=
  lines.enum.map fun iy => bandOccupied points iy.2 (nextLineY lines iy.1)

/-- The value returned by the band loop after `parking_spaces.reverse()`
(lines 102 to 103). -/
def checkBands (lines : List Int) (points : List Point) : List Bool :=
  (checkBandsPre lines points).reverse

/-- `ImageProcessor.check_parking_spaces`: filter and warp the car points
through `PARKING_BOX`, then run the band loop over `PARKING_LINES`. -/
def check_parking_spaces (warp : Point → Point) (car_points : List Point) :
    List Bool :=
  checkBands PARKING_LINES (get_warped_car_points PARKING_BOX warp car_points)

/-- The walk of `ImageProcessor.count_cars_traffic_light_queue`
(lines 120 to 126): the last accepted y is seeded at 0 (`Point(0, 0)`),
a point is accepted when `point.y < 120 or point.y - last_car.y < 150`,
and the loop breaks at the first point failing both conditions. -/
def queueWalk (last_y : Int) : List Point → List Point
  | [] => []
  | p :: rest =>
    if p.y < 120 || p.y - last_y < 150 then
      p :: queueWalk p.y rest
    else
      []

/-- The tail of `ImageProcessor.count_cars_traffic_light_queue` acting on
the already warped points: sort by y, walk, return the count. -/
def count_queue_from_warped (warped : List Point) : Nat :=
  (queueWalk 0 (sortByY warped)).length

/-- `ImageProcessor.count_cars_traffic_light_queue`: filter and warp the
car points through `TRAFFIC_LIGHT_QUEUE`, then count the contiguous
queue. -/
def count_cars_traffic_light_queue (warp : Point → Point)
    (car_points : List Point) : Nat :=
  count_queue_from_warped (get_warped_car_points TRAFFIC_LIGHT_QUEUE warp car_points)

/-- The error taxonomy of `src/image_utils.py`: the `ValueError`s actually
raised by `ImageUtils.warp_perspective`, plus the `DegenerateConfiguration`
kind named by the specification for collinear corners. -/
inductive WarpError where
  | invalidArgument : String → WarpError
  | degenerateConfiguration : WarpError
deriving DecidableEq, Repr

/-- The default destination points of `ImageUtils.warp_perspective`
(lines 58 to 61). -/
def defaultDstPoints : List Point :=
  [⟨1000, 1000⟩, ⟨0, 1000⟩, ⟨0, 0⟩, ⟨1000, 0⟩]

/-- `ImageUtils.warp_perspective` from `src/image_utils.py`, modelled up to
the external solver: validate the two point counts, then hand the
source/destination correspondence to `cv2.getPerspectiveTransform`
unchanged. The `.ok` value is exactly that correspondence; no other check
is performed and no other error is raised. -/
def warp_perspective (src_points : List Point) (dst_points : List Point) :
    Except WarpError (List Point × List Point) :=
  if src_points.length ≠ 4 then
    .error (.invalidArgument "src_points must contain exactly 4 points.")
  else if dst_points.length = 0 then
    .ok (src_points, defaultDstPoints)
  else if dst_points.length ≠ 4 then
    .error (.invalidArgument "dst_points must contain exactly 4 points, be empty or left unset for default values.")
  else
    .ok (src_points, dst_points)

/-- Three points are collinear: the cross product of the two difference
vectors vanishes. -/
def collinear3 (p q r : Point) : Prop :=
  (q.x - p.x) * (r.y - p.y) = (r.x - p.x) * (q.y - p.y)

instance (p q r : Point) : Decidable (collinear3 p q r) := by
  unfold collinear3; infer_instance

/-- The effect of `ImageProcessor.get_image_with_cars_from_quadrilateral`
on the data owned by its caller (with `display_intermediate = False`, the
core path): the only in-place operation on a caller argument is
`car_points.sort(key=lambda p: p.y)` at line 41; every image operation
(`resize_with_aspect_ratio`, `warp_perspective`, the debug drawing on
freshly derived arrays) allocates a new array and rebinds a local, so the
caller's image is left as it was. The result is the pair
(caller's image after the call, caller's car-point list after the call). -/
def get_image_callerState {α : Type} (image : α) (car_points : List Point) :
    α × List Point :=
  (image, sortByY car_points)

/-! ### Theorems -/

/-- C1. The claim states that with band thresholds `[10, 100, 192]`
(sentinel 1000) and warped points at y = 5, 150, 500, the per-band result
before reversal is `[true, false, true]` and the returned value is
`[true, false, true]`. This is false of the band loop: y = 5 lies below
the first threshold 10 and belongs to no band, while 150 and 500 fall in
the second and third bands. -/
theorem c1_banding_counterexample :
    ¬(checkBandsPre [10, 100, 192] [⟨0, 5⟩, ⟨0, 150⟩, ⟨0, 500⟩] = [true, false, true] ∧
      checkBands [10, 100, 192] [⟨0, 5⟩, ⟨0, 150⟩, ⟨0, 500⟩] = [true, false, true]) := by
  decide

/-- C1 amended. With band thresholds `[10, 100, 192]` (sentinel 1000) and
warped points at y = 5, 150, 500, the per-band result before reversal is
`[false, true, true]` and the value returned after reversal is
`[true, true, false]`. -/
theorem c1_banding_amended :
    checkBandsPre [10, 100, 192] [⟨0, 5⟩, ⟨0, 150⟩, ⟨0, 500⟩] = [false, true, true] ∧
    checkBands [10, 100, 192] [⟨0, 5⟩, ⟨0, 150⟩, ⟨0, 500⟩] = [true, true, false] := by
  decide

/-- C2. The band loop reverses the per-band list exactly once before
returning, so for every band list and point list the returned list is the
reverse of the in-threshold-order results; with bands `[0, 50]`
(sentinel 1000) and one point at y = 10, the pre-reversal result is
`[true, false]` and the returned result is `[false, true]`. -/
theorem c2_reversal_semantics :
    (∀ (lines : List Int) (points : List Point),
      checkBands lines points = (checkBandsPre lines points).reverse) ∧
    checkBandsPre [0, 50] [⟨0, 10⟩] = [true, false] ∧
    checkBands [0, 50] [⟨0, 10⟩] = [false, true] :=
  ⟨fun _ _ => rfl, by decide, by decide⟩

/-- C4. The queue walk accepts a contiguous initial segment — it stops
rather than skips at the first failing point, so the accepted list is a
`take` of the sorted input — and on warped points with sorted
y = [30, 100, 140, 400] (thresholds 120 and 150) it accepts the first
three and returns 3. -/
theorem c4_queue_count :
    (∀ (last_y : Int) (pts : List Point), ∃ n, queueWalk last_y pts = pts.take n) ∧
    count_queue_from_warped [⟨0, 30⟩, ⟨0, 100⟩, ⟨0, 140⟩, ⟨0, 400⟩] = 3 := by
  constructor
  · intro last_y pts
    induction pts generalizing last_y with
    | nil => exact ⟨0, rfl⟩
    | cons p rest ih =>
      by_cases h : (p.y < 120 || p.y - last_y < 150) = true
      · obtain ⟨n, hn⟩ := ih p.y
        exact ⟨n + 1, by simp [queueWalk, h, hn]⟩
      · exact ⟨0, by simp [queueWalk, h]⟩
  · decide

/-- C8. The claim states that `warp_perspective` fails with a
`DegenerateConfiguration` error whenever three source corners are
collinear. It is false: with the collinear corners (0,0), (1,1), (2,2)
(and a fourth corner), the function performs no collinearity check and
returns normally, handing the correspondence to the external solver. -/
theorem c8_degenerate_counterexample :
    collinear3 ⟨0, 0⟩ ⟨1, 1⟩ ⟨2, 2⟩ ∧
    warp_perspective [⟨0, 0⟩, ⟨1, 1⟩, ⟨2, 2⟩, ⟨5, 0⟩] [] =
      Except.ok ([⟨0, 0⟩, ⟨1, 1⟩, ⟨2, 2⟩, ⟨5, 0⟩], defaultDstPoints) ∧
    warp_perspective [⟨0, 0⟩, ⟨1, 1⟩, ⟨2, 2⟩, ⟨5, 0⟩] [] ≠
      Except.error WarpError.degenerateConfiguration := by
  refine ⟨by decide, rfl, ?_⟩
  intro h
  have hok : warp_perspective [⟨0, 0⟩, ⟨1, 1⟩, ⟨2, 2⟩, ⟨5, 0⟩] [] =
      Except.ok ([⟨0, 0⟩, ⟨1, 1⟩, ⟨2, 2⟩, ⟨5, 0⟩], defaultDstPoints) := rfl
  rw [hok] at h
  exact Except.noConfusion h

/-- C8 amended. `warp_perspective` never raises `DegenerateConfiguration`
for any input: its only validation is of the two point counts (raising
`InvalidArgument`, the model of `ValueError`); collinear source corners
are passed unchanged to the external solver, which may then yield a
degenerate matrix. -/
theorem c8_amended_no_degenerate_check (src_points dst_points : List Point) :
    warp_perspective src_points dst_points ≠
      Except.error WarpError.degenerateConfiguration := by
  unfold warp_perspective
  split
  · simp
  · split
    · simp
    · split <;> simp

/-- C9. The claim states that `get_image_with_cars_from_quadrilateral`
leaves the caller's inputs, including the car-point list and its ordering,
unchanged. It is false: the in-place `car_points.sort(key=lambda p: p.y)`
reorders the caller's list, as at the input `[(0, 5), (0, 1)]`. -/
theorem c9_mutation_counterexample :
    (get_image_callerState (0 : Nat) [⟨0, 5⟩, ⟨0, 1⟩]).2 ≠
      ([⟨0, 5⟩, ⟨0, 1⟩] : List Point) := by
  decide

/-- C9 amended. The call leaves the caller's image unchanged and performs
exactly one mutation of caller data: the car-point list is sorted in place
by y, so afterwards it is a permutation of the original holding the same
points in ascending-y order. -/
theorem c9_amended_effects {α : Type} (image : α) (car_points : List Point) :
    (get_image_callerState image car_points).1 = image ∧
    (get_image_callerState image car_points).2 = sortByY car_points ∧
    ((get_image_callerState image car_points).2).Perm car_points :=
  ⟨rfl, rfl, List.perm_insertionSort _ _⟩

/-- Helper: the band loop on an empty point list yields all-false. -/
theorem checkBands_nil (lines : List Int) :
    checkBands lines [] = List.replicate lines.length false := by
  simp [checkBands, checkBandsPre, bandOccupied]

/-- C5. With zero detected car points nothing survives the filter-and-warp
pipeline, so for every band list the band loop reports all-false, the
parking-space check reports all ten slots free, and the queue count
is 0. -/
theorem c5_empty_detections :
    (∀ (lines : List Int) (quad : Box) (warp : Point → Point),
      checkBands lines (get_warped_car_points quad warp []) =
        List.replicate lines.length false) ∧
    (∀ warp : Point → Point,
      check_parking_spaces warp [] = List.replicate 10 false) ∧
    (∀ warp : Point → Point, count_cars_traffic_light_queue warp [] = 0) := by
  refine ⟨?_, ?_, ?_⟩
  · intro lines quad warp
    have h : get_warped_car_points quad warp [] = [] := rfl
    rw [h, checkBands_nil]
  · intro warp
    have h : get_warped_car_points PARKING_BOX warp [] = [] := rfl
    unfold check_parking_spaces
    rw [h, checkBands_nil]
    rfl
  · intro warp
    rfl

/-- Helper: the loop of `check_point_inside` returns `true` as soon as some
pair satisfies the horizontal-edge condition, regardless of the running
flag. -/
theorem checkPointInsideLoop_horizontal (p : Point) :
    ∀ (pairs : List (Point × Point)) (inside : Bool),
      (∃ cn ∈ pairs, onHorizontalEdge cn.1 cn.2 p) →
      checkPointInsideLoop p pairs inside = true := by
  intro pairs
  induction pairs with
  | nil => intro inside h; simp at h
  | cons hd tl ih =>
    intro inside h
    obtain ⟨c, n⟩ := hd
    obtain ⟨cn, hmem, hcond⟩ := h
    rcases List.mem_cons.mp hmem with heq | hmem'
    · subst heq
      simp [checkPointInsideLoop, hcond]
    · by_cases hh : onHorizontalEdge c n p
      · simp [checkPointInsideLoop, hh]
      · unfold checkPointInsideLoop
        rw [if_neg hh]
        split
        · exact ih (!inside) ⟨cn, hmem', hcond⟩
        · exact ih inside ⟨cn, hmem', hcond⟩

/-- C6. If a point lies exactly on a horizontal edge of the quadrilateral
— the edge's two endpoints share the point's y and its x lies within the
edge's x-span, both ends inclusive — then `check_point_inside` reports it
inside, bypassing the ray-casting parity count. -/
theorem c6_horizontal_edge (b : Box) (p : Point)
    (h : ∃ cn ∈ b.edgePairs, onHorizontalEdge cn.1 cn.2 p) :
    b.check_point_inside p = true :=
  checkPointInsideLoop_horizontal p b.edgePairs false h

/-- C6 witness: the unit square; the point (5, 0) lies on the top
horizontal edge between the two x-extremes and is reported inside. -/
theorem c6_horizontal_edge_witness :
    Box.check_point_inside
      { top_left := ⟨0, 0⟩, bottom_right := ⟨10, 10⟩,
        top_right := ⟨10, 0⟩, bottom_left := ⟨0, 10⟩ } ⟨5, 0⟩ = true :=
  c6_horizontal_edge _ _ (by decide)

/-- C7. The point-in-region test is total — it returns one of the two
booleans for every quadrilateral and point — and the interpolation
division is safe: whenever the half-open straddle guard of the ray-casting
branch holds, the denominator `next.y - current.y` is nonzero. -/
theorem c7_total_no_zero_denominator (b : Box) (p : Point) (cy ny : Int)
    (h : straddles cy ny p.y = true) :
    ny - cy ≠ 0 ∧
    (b.check_point_inside p = true ∨ b.check_point_inside p = false) := by
  constructor
  · unfold straddles at h
    simp only [Bool.or_eq_true, Bool.and_eq_true, decide_eq_true_eq] at h
    rcases h with ⟨h1, h2⟩ | ⟨h1, h2⟩ <;> omega
  · cases hb : b.check_point_inside p
    · exact Or.inr rfl
    · exact Or.inl rfl

/-- C7 witness: applied to `PARKING_BOX`, the point (0, 5) and the
straddling edge y-span from 0 to 10. -/
theorem c7_total_no_zero_denominator_witness :
    (10 : Int) - 0 ≠ 0 ∧
    (PARKING_BOX.check_point_inside ⟨0, 5⟩ = true ∨
      PARKING_BOX.check_point_inside ⟨0, 5⟩ = false) :=
  c7_total_no_zero_denominator PARKING_BOX ⟨0, 5⟩ 0 10 (by decide)

/-- Helper: the entry of the pre-reversal band list at a valid index is the
occupancy of that band. -/
theorem checkBandsPre_getD (lines : List Int) (points : List Point) (i : Nat)
    (h : i < lines.length) :
    (checkBandsPre lines points).getD i false =
      bandOccupied points (lines.getD i 0) (nextLineY lines i) := by
  unfold checkBandsPre
  rw [List.getD_eq_getElem?_getD, List.getElem?_map, List.getElem?_enum,
      List.getElem?_eq_getElem h, List.getD_eq_getElem?_getD,
      List.getElem?_eq_getElem h]
  rfl

/-- Helper: with `i + 1` a valid index, the upper end of band `i` is the
shared threshold `lines[i + 1]`. -/
theorem nextLineY_eq_getD (lines : List Int) (i : Nat)
    (h : i + 1 < lines.length) : nextLineY lines i = lines.getD (i + 1) 0 := by
  unfold nextLineY
  rw [dif_pos h, List.getD_eq_getElem?_getD, List.getElem?_eq_getElem h]
  rfl

/-- C3. For a sorted band list bounded by the sentinel 1000 and adjacent
bands `i` and `i + 1`, a point's y lies in both bands' inclusive intervals
iff it equals the shared threshold `lines[i + 1]`; and whenever a warped
point with that exact y is present, both bands report occupied. -/
theorem c3_adjacent_band_overlap (lines : List Int) (p : Point) (i : Nat)
    (hlt : i + 1 < lines.length)
    (hchain : lines.Chain' (· ≤ ·))
    (hbound : ∀ x ∈ lines, x ≤ 1000) :
    ((bandTest lines i p.y = true ∧ bandTest lines (i + 1) p.y = true) ↔
      p.y = lines.getD (i + 1) 0) ∧
    (∀ points : List Point, p ∈ points → p.y = lines.getD (i + 1) 0 →
      (checkBandsPre lines points).getD i false = true ∧
      (checkBandsPre lines points).getD (i + 1) false = true) := by
  have hi : i < lines.length := Nat.lt_of_succ_lt hlt
  have f1 : lines.getD i 0 = lines.get ⟨i, hi⟩ := by
    rw [List.getD_eq_getElem?_getD, List.getElem?_eq_getElem hi]; rfl
  have f2 : lines.getD (i + 1) 0 = lines.get ⟨i + 1, hlt⟩ := by
    rw [List.getD_eq_getElem?_getD, List.getElem?_eq_getElem hlt]; rfl
  have f3 : nextLineY lines i = lines.get ⟨i + 1, hlt⟩ := by
    rw [nextLineY_eq_getD lines i hlt, f2]
  have f4 : lines.get ⟨i, hi⟩ ≤ lines.get ⟨i + 1, hlt⟩ := by
    have := List.chain'_iff_get.mp hchain i (by omega)
    exact this
  have f5 : lines.get ⟨i + 1, hlt⟩ ≤ nextLineY lines (i + 1) := by
    unfold nextLineY
    split
    · rename_i h2
      have := List.chain'_iff_get.mp hchain (i + 1) (by omega)
      exact this
    · exact hbound _ (List.get_mem lines (i + 1) hlt)
  have hmain : (bandTest lines i p.y = true ∧ bandTest lines (i + 1) p.y = true) ↔
      p.y = lines.getD (i + 1) 0 := by
    unfold bandTest
    rw [f1, f2, f3]
    simp only [Bool.and_eq_true, decide_eq_true_eq]
    constructor
    · rintro ⟨⟨_, h1⟩, ⟨h2, _⟩⟩
      omega
    · intro hy
      refine ⟨⟨?_, ?_⟩, ?_, ?_⟩ <;> omega
  refine ⟨hmain, ?_⟩
  intro points hp hy
  rw [checkBandsPre_getD lines points i hi, checkBandsPre_getD lines points (i + 1) hlt]
  obtain ⟨ht1, ht2⟩ := hmain.mpr hy
  unfold bandTest at ht1 ht2
  unfold bandOccupied
  constructor
  · exact List.any_eq_true.mpr ⟨p, hp, ht1⟩
  · exact List.any_eq_true.mpr ⟨p, hp, ht2⟩

/-- C3 witness: bands `[0, 50]`, the point (0, 50) at the shared
threshold 50 satisfies both band intervals. -/
theorem c3_adjacent_band_overlap_witness :
    bandTest [0, 50] 0 50 = true ∧ bandTest [0, 50] 1 50 = true :=
  (c3_adjacent_band_overlap [0, 50] ⟨0, 50⟩ 0 (by decide)
    (List.chain'_cons.mpr ⟨by decide, List.chain'_singleton _⟩)
    (by decide)).1.mpr (by decide)

/-- Helper: the pre-reversal band list has one entry per threshold. -/
theorem checkBandsPre_length (lines : List Int) (pts : List Point) :
    (checkBandsPre lines pts).length = lines.length := by
  simp [checkBandsPre]

/-- Helper: the entry of the pre-reversal band list at a valid index, in
`getElem` form. -/
theorem checkBandsPre_getElem (lines : List Int) (pts : List Point) (j : Nat)
    (h : j < (checkBandsPre lines pts).length) :
    (checkBandsPre lines pts)[j] =
      bandOccupied pts (lines.getD j 0) (nextLineY lines j) := by
  have hj : j < lines.length := by rwa [checkBandsPre_length] at h
  unfold checkBandsPre
  rw [List.getElem_map, List.getElem_enum,
      List.getD_eq_getElem?_getD, List.getElem?_eq_getElem hj]
  rfl

/-- Helper: band occupancy only looks for some point in the interval, so it
is monotone under adding points. -/
theorem bandOccupied_mono {ptsA ptsB : List Point}
    (hsub : ∀ p ∈ ptsA, p ∈ ptsB) (l n : Int) :
    bandOccupied ptsA l n = true → bandOccupied ptsB l n = true := by
  intro h
  unfold bandOccupied at h ⊢
  obtain ⟨p, hp, hc⟩ := List.any_eq_true.mp h
  exact List.any_eq_true.mpr ⟨p, hsub p hp, hc⟩

/-- Helper: each band entry of the returned (reversed) list is monotone
under adding points. -/
theorem checkBands_mono (lines : List Int) (ptsA ptsB : List Point)
    (hsub : ∀ p ∈ ptsA, p ∈ ptsB) (i : Nat)
    (hA : i < (checkBands lines ptsA).length)
    (hB : i < (checkBands lines ptsB).length) :
    (checkBands lines ptsA).get ⟨i, hA⟩ = true →
    (checkBands lines ptsB).get ⟨i, hB⟩ = true := by
  intro htrue
  rw [List.get_eq_getElem] at htrue ⊢
  unfold checkBands at htrue hA hB ⊢
  rw [List.getElem_reverse] at htrue ⊢
  rw [checkBandsPre_getElem] at htrue ⊢
  simp only [checkBandsPre_length] at htrue ⊢
  exact bandOccupied_mono hsub _ _ htrue

/-- Helper: a point surviving the sort-filter-warp pipeline on a list
survives it on any superlist. -/
theorem get_warped_car_points_mono (quad : Box) (warp : Point → Point)
    (A B : List Point) (hsub : ∀ p ∈ A, p ∈ B) :
    ∀ q ∈ get_warped_car_points quad warp A,
      q ∈ get_warped_car_points quad warp B := by
  intro q hq
  unfold get_warped_car_points at hq ⊢
  rw [List.mem_map] at hq ⊢
  obtain ⟨r, hr, rfl⟩ := hq
  rw [List.mem_filter] at hr
  refine ⟨r, List.mem_filter.mpr ⟨?_, hr.2⟩, rfl⟩
  unfold sortByY at hr ⊢
  exact (List.perm_insertionSort _ B).mem_iff.mpr
    (hsub r ((List.perm_insertionSort _ A).mem_iff.mp hr.1))

/-- Helper: the returned band list has one entry per threshold. -/
theorem checkBands_length (lines : List Int) (pts : List Point) :
    (checkBands lines pts).length = lines.length := by
  simp [checkBands, checkBandsPre]

/-- C10. Occupancy is monotone in the detected points: if every point of
`A` also occurs in `B`, then every slot reported occupied by
`check_parking_spaces` on `A` is also reported occupied on `B` — each
point is filtered, warped and band-tested independently and a band is
occupied once any point falls in it. -/
theorem c10_occupancy_monotone (warp : Point → Point) (A B : List Point)
    (hsub : ∀ p ∈ A, p ∈ B) (i : Nat)
    (h : (check_parking_spaces warp A).getD i false = true) :
    (check_parking_spaces warp B).getD i false = true := by
  have hA : i < (check_parking_spaces warp A).length := by
    by_contra hn
    rw [List.getD_eq_getElem?_getD, List.getElem?_eq_none (by omega)] at h
    simp at h
  have hB : i < (check_parking_spaces warp B).length := by
    unfold check_parking_spaces at hA ⊢
    rw [checkBands_length] at hA ⊢
    exact hA
  rw [List.getD_eq_getElem?_getD, List.getElem?_eq_getElem hA,
    Option.getD_some] at h
  rw [List.getD_eq_getElem?_getD, List.getElem?_eq_getElem hB,
    Option.getD_some]
  have hmono := checkBands_mono PARKING_LINES
    (get_warped_car_points PARKING_BOX warp A)
    (get_warped_car_points PARKING_BOX warp B)
    (get_warped_car_points_mono PARKING_BOX warp A B hsub) i hA hB
  rw [List.get_eq_getElem, List.get_eq_getElem] at hmono
  exact hmono h

/-- C10 witness: the point (600, 350) lies inside `PARKING_BOX`; with a
warp sending every point to y = 500 it makes slot 4 of the reversed output
occupied, and the slot stays occupied for the superlist with one extra
point. -/
theorem c10_occupancy_monotone_witness :
    (check_parking_spaces (fun _ => (⟨0, 500⟩ : Point))
      [⟨600, 350⟩, ⟨0, 0⟩]).getD 4 false = true := by
  refine c10_occupancy_monotone (fun _ => (⟨0, 500⟩ : Point)) [⟨600, 350⟩]
    [⟨600, 350⟩, ⟨0, 0⟩] (by decide) 4 ?_
  have h : PARKING_BOX.check_point_inside ⟨600, 350⟩ = true := by
    norm_num [Box.check_point_inside, Box.edgePairs, checkPointInsideLoop,
      onHorizontalEdge, straddles, edgeXAt, PARKING_BOX]
  have hw : get_warped_car_points PARKING_BOX (fun _ => (⟨0, 500⟩ : Point))
      [⟨600, 350⟩] = [⟨0, 500⟩] := by
    simp [get_warped_car_points, sortByY, List.insertionSort, List.filter, h]
  unfold check_parking_spaces
  rw [hw]
  decide
